import Mathlib

/-!
Verification of the Bazaar version-control backend (`meld/vc/bzr.py`):
a shallow embedding of its status-line parsing, per-path state
reconciliation, tree-state caching, commit-set computation and
action-sensitivity logic, together with theorems checking the
natural-language specification against that embedding.

External effects (filesystem tests, subprocess output) are passed in as
explicit parameters, so every definition is executable.
-/

namespace Bzr

/-- Modelled from the spec: the `_vc` module that defines the `STATE_*`
enumeration is not under `src/`.  The spec fixes the reconciliation priority
order as `CONFLICT > RENAMED > REMOVED > MODIFIED > NEW > MISSING > NORMAL >
IGNORED > NONE` (higher wins), and the code compares states with the numeric
`>`, so the states are embedded as natural numbers in exactly that order. -/
def STATE_NONE : Nat := 0

/-- Modelled from the spec: see `STATE_NONE`. -/
def STATE_IGNORED : Nat := 1

/-- Modelled from the spec: see `STATE_NONE`. -/
def STATE_NORMAL : Nat := 2

/-- Modelled from the spec: see `STATE_NONE`. -/
def STATE_MISSING : Nat := 3

/-- Modelled from the spec: see `STATE_NONE`. -/
def STATE_NEW : Nat := 4

/-- Modelled from the spec: see `STATE_NONE`. -/
def STATE_MODIFIED : Nat := 5

/-- Modelled from the spec: see `STATE_NONE`. -/
def STATE_REMOVED : Nat := 6

/-- Modelled from the spec: see `STATE_NONE`. -/
def STATE_RENAMED : Nat := 7

/-- Modelled from the spec: see `STATE_NONE`. -/
def STATE_CONFLICT : Nat := 8

/-- The spec's reconciliation priority order, highest priority first. -/
def specPriority : List Nat :=
  [STATE_CONFLICT, STATE_RENAMED, STATE_REMOVED, STATE_MODIFIED, STATE_NEW,
   STATE_MISSING, STATE_NORMAL, STATE_IGNORED, STATE_NONE]

/-- `higherPriority a b` holds when state `a` is strictly higher than state
`b` in the spec's priority order (earlier in `specPriority`). -/
def higherPriority (a b : Nat) : Bool :=
  specPriority.indexOf a < specPriority.indexOf b

/-- Lookup in an association list, the embedding of Python `dict` access. -/
def alistLookup {α : Type} : List (String × α) → String → Option α
  | [], _ => none
  | (k', v) :: t, k => if k' = k then some v else alistLookup t k

/-- Key update in an association list, the embedding of Python `dict`
assignment: an existing binding for the key is replaced in place, a fresh
key is appended. -/
def alistInsert {α : Type} : List (String × α) → String → α → List (String × α)
  | [], k, v => [(k, v)]
  | (k', v') :: t, k, v =>
      if k' = k then (k, v) :: t else (k', v') :: alistInsert t k v

/-- `bzr.py` lines 232-241: when an observation `(path, state)` meets a
`tree_state` that already holds a state for `path`, the stored state is
replaced only when `state > tree_state[path]`; a path not yet present is
simply stored. -/
def reconcileEntry (treeState : List (String × Nat)) (path : String)
    (state : Nat) : List (String × Nat) :=
  match alistLookup treeState path with
  | some old => if state > old then alistInsert treeState path state else treeState
  | none => alistInsert treeState path state

theorem alistLookup_insert {α : Type} (l : List (String × α)) (k : String)
    (v : α) : alistLookup (alistInsert l k v) k = some v := by
  induction l with
  | nil => simp [alistInsert, alistLookup]
  | cons h t ih =>
      obtain ⟨k', v'⟩ := h
      by_cases hk : k' = k
      · simp [alistInsert, hk, alistLookup]
      · simp [alistInsert, hk, alistLookup, ih]

theorem reconcileEntry_lookup (ts : List (String × Nat)) (path : String)
    (old s : Nat) (h : alistLookup ts path = some old) :
    alistLookup (reconcileEntry ts path s) path =
      some (if s > old then s else old) := by
  unfold reconcileEntry
  rw [h]
  by_cases hlt : s > old
  · simp [hlt, alistLookup_insert]
  · simp [hlt, h]

theorem gt_iff_higherPriority :
    ∀ a ∈ specPriority, ∀ b ∈ specPriority, (decide (a > b)) = higherPriority a b := by
  decide

/-- C1: when two parsed observations assign states to the same path, the
later observation replaces the stored state only if it is strictly higher in
the spec's priority order `CONFLICT > RENAMED > REMOVED > MODIFIED > NEW >
MISSING > NORMAL > IGNORED > NONE`; otherwise the earlier state is kept.  In
particular a stored `CONFLICT` or `RENAMED` entry is never downgraded by a
later `MODIFIED` observation for the same path. -/
theorem later_observation_overrides_only_if_higher_priority
    (ts : List (String × Nat)) (path : String) (old s : Nat)
    (hold : old ∈ specPriority) (hs : s ∈ specPriority)
    (h : alistLookup ts path = some old) :
    alistLookup (reconcileEntry ts path s) path =
      some (if higherPriority s old then s else old) ∧
    ((old = STATE_CONFLICT ∨ old = STATE_RENAMED) → s = STATE_MODIFIED →
      alistLookup (reconcileEntry ts path s) path = some old) := by
  have hgt := gt_iff_higherPriority s hs old hold
  constructor
  · rw [reconcileEntry_lookup ts path old s h]
    by_cases hcmp : s > old
    · have : higherPriority s old = true := by rw [← hgt]; simp [hcmp]
      simp [hcmp, this]
    · have : higherPriority s old = false := by rw [← hgt]; simp [hcmp]
      simp [hcmp, this]
  · intro hstrong hmod
    rw [reconcileEntry_lookup ts path old s h]
    rcases hstrong with hc | hr
    · subst hc; subst hmod; decide
    · subst hr; subst hmod; decide

theorem later_observation_overrides_only_if_higher_priority_witness :
    alistLookup
      (reconcileEntry [("/r/f", STATE_CONFLICT)] "/r/f" STATE_MODIFIED)
      "/r/f" = some STATE_CONFLICT := by
  have h := later_observation_overrides_only_if_higher_priority
    [("/r/f", STATE_CONFLICT)] "/r/f" STATE_CONFLICT STATE_MODIFIED
    (by decide) (by decide) (by simp [alistLookup])
  exact h.2 (Or.inl rfl) rfl

/-- Characters stripped by Python `str.strip()` (ASCII whitespace). -/
def pyWhitespace (c : Char) : Bool :=
  c == ' ' || c == '\t' || c == '\n' || c == '\r' || c == '\x0b' || c == '\x0c'

/-- Python `str.strip()`: remove leading and trailing whitespace. -/
def pyStrip (s : String) : String :=
  ⟨((s.data.dropWhile pyWhitespace).reverse.dropWhile pyWhitespace).reverse⟩

/-- Python `str.strip(c)` with a single character argument. -/
def pyStripChar (c : Char) (s : String) : String :=
  ⟨((s.data.dropWhile (· == c)).reverse.dropWhile (· == c)).reverse⟩

/-- Split a character list on a non-empty separator; the first argument is
fuel, instantiated with the list's length (each step consumes at least one
character, so the fallback in the fuel-0 case is never reached). -/
def splitOnAux (sep : List Char) : Nat → List Char → List Char → List (List Char)
  | 0, l, acc => [acc.reverse ++ l]
  | _ + 1, [], acc => [acc.reverse]
  | n + 1, c :: rest, acc =>
      if sep.isPrefixOf (c :: rest) then
        acc.reverse :: splitOnAux sep n ((c :: rest).drop sep.length) []
      else
        splitOnAux sep n rest (c :: acc)

/-- Python `str.split(sep)` for a non-empty separator, also the model of the
substring searches performed by the regular expressions in `bzr.py`. -/
def strSplitOn (s sep : String) : List String :=
  (splitOnAux sep.data s.data.length s.data []).map (fun l => ⟨l⟩)

/-- Join a list of strings with a separator between the pieces. -/
def joinWith (sep : String) : List String → String
  | [] => ""
  | [s] => s
  | s :: rest => s ++ sep ++ joinWith sep rest

/-- Python `s.startswith(pre)`. -/
def strStartsWith (s pre : String) : Bool := pre.data.isPrefixOf s.data

/-- Python `s.endswith(suf)`. -/
def strEndsWith (s suf : String) : Bool := suf.data.isSuffixOf s.data

/-- The search done by `RENAMED_RE` (`".*=> (.*)$"`): because the leading
`.*` is greedy, group 1 is the text after the LAST occurrence of `"=> "`;
with no occurrence there is no match. -/
def renamedTarget (name : String) : Option String :=
  let parts := strSplitOn name "=> "
  if parts.length ≥ 2 then some (parts.getLastD "") else none

/-- The search done by `CONFLICT_RE` (`"conflict in (.*)$"`): group 1 is
everything after the FIRST occurrence of `"conflict in "`; with no
occurrence there is no match. -/
def conflictTarget (name : String) : Option String :=
  let parts := strSplitOn name "conflict in "
  if parts.length ≥ 2 then some (joinWith "conflict in " (parts.drop 1))
  else none

/-- The search done by `PATCH_INDEX_RE` (`"^=== modified file '(.*)' (.*)$"`)
on the first line of the auxiliary diff: anchored at the start of the line;
because the first group is greedy, group 2 is the text after the LAST
occurrence of `"' "` in the remainder of the line. -/
def patchIndexGroup2 (line : String) : Option String :=
  if strStartsWith line "=== modified file '" then
    let parts := strSplitOn ⟨line.data.drop ("=== modified file '".data.length)⟩ "' "
    if parts.length ≥ 2 then some (parts.getLastD "") else none
  else none

/-- `os.path.join` for two POSIX path components, as used at line 217. -/
def osPathJoin (a b : String) : String :=
  if strStartsWith b "/" then b
  else if a == "" || strEndsWith a "/" then a ++ b
  else a ++ "/" ++ b

/-- The keys of `state_2_map` in `bzr.py`. -/
def state_2_chars : List Char := [' ', 'N', 'D', 'K', 'M']

/-- The keys of `state_3_map` in `bzr.py`. -/
def state_3_chars : List Char := [' ', '*', '/', '@']

/-- `state_1_map`: first status column.  `none` stands for Python `None`
(flags the code does not deal with); `.get(c, None)` on an unknown key also
yields `none`, so those cases collapse. -/
def state_1_map : Char → Option Nat
  | 'R' => some STATE_RENAMED
  | '?' => some STATE_NONE
  | 'C' => some STATE_CONFLICT
  | _ => none

/-- `state_2_map`, with the `.get(c, STATE_NORMAL)` default of line 199
folded in (the blank key also maps to `STATE_NORMAL`). -/
def state_2_map : Char → Nat
  | 'N' => STATE_NEW
  | 'D' => STATE_REMOVED
  | 'K' => STATE_RENAMED
  | 'M' => STATE_MODIFIED
  | _ => STATE_NORMAL

/-- `state_3_map`: executable-bit change column; `.get(c, None)` default. -/
def state_3_map : Char → Option Nat
  | '*' => some STATE_MODIFIED
  | '/' => some STATE_MODIFIED
  | '@' => some STATE_MODIFIED
  | _ => none

/-- The column-1 class of `valid_status_re`: the pattern is built by
joining `state_1_map.keys()`, which in the dict literal's insertion order
is the string `" +-R?XCP"`, so inside `[...]` the middle `-` forms the
RANGE from `'+'` (0x2B) to `'R'` (0x52): besides the listed keys, the
class also accepts digits, much punctuation and the capitals `A`-`Q`.
The test mirrors the class as parsed: the space, the range, then the
literals `?`, `X`, `C`, `P`.  (A Python 2.7 dict would join the keys in a
different order, making the range end at `'P'` with `'R'` a literal; the
two classes differ only at `'Q'`.  The insertion-order class is
modelled.) -/
def state1ClassAccepts (c : Char) : Bool :=
  c == ' ' || ('+' ≤ c && c ≤ 'R') || c == '?' || c == 'X' ||
    c == 'C' || c == 'P'

/-- `valid_status_re` applied with `re.match` to `entry[:3]`: it succeeds
iff the line has at least three characters, the first is in the column-1
class (which the mid-class `-` widens to a range, see
`state1ClassAccepts`), and the second and third are keys of their column
tables (their joined key strings `" NDKM"` and `" */@"` contain no `-`,
so they are literal classes; the trailing `\s*` always matches). -/
def validStatus (c1 c2 c3 : Char) : Bool :=
  state1ClassAccepts c1 && state_2_chars.contains c2 &&
    state_3_chars.contains c3

/-- Lines 197-200: column 1 decides the state unless its map entry is
`None`, in which case column 2 decides (with default `STATE_NORMAL`). -/
def decodeState (c1 c2 : Char) : Nat :=
  match state_1_map c1 with
  | some s => s
  | none => state_2_map c2

/-- Lines 202-215: the extra processing for renamed and conflict lines.
Returns the corrected name together with the metadata accumulated so far
(`meta += name` happens before the name is rewritten); `none` means the
line is discarded. -/
def renameConflictFixup (state : Nat) (name : String) :
    Option (String × String) :=
  if state = STATE_RENAMED then
    match renamedTarget name with
    | none => none
    | some target => some (pyStripChar '/' target, name)
  else if state = STATE_CONFLICT then
    match conflictTarget name with
    | none => none
    | some target => some (target, "")
  else some (name, "")

/-- The scan state threaded through the entry loop: `tree_state`,
`self._tree_meta_cache`, and — recording the effects of the Command
Runner — the list of paths passed to the auxiliary `bzr diff` invocation
of line 224, in order. -/
structure ScanState where
  treeState : List (String × Nat)
  metaCache : List (String × String)
  diffCalls : List String
deriving DecidableEq

/-- Lines 197-241, after the three status columns and the name have been
extracted and the columns validated.  `diffLine` abstracts the first output
line of the auxiliary `bzr diff <path>` subprocess; `branchRoot` is the
output of `bzr root`. -/
def processLine (diffLine : String → String) (branchRoot : String)
    (st : ScanState) (c1 c2 c3 : Char) (name : String) : ScanState :=
  let state0 := decodeState c1 c2
  match renameConflictFixup state0 name with
  | none => st
  | some (name', meta0) =>
      let path := osPathJoin branchRoot name'
      let (state, meta, diffCalls) :=
        match state_3_map c3 with
        | none => (state0, meta0, st.diffCalls)
        | some execState =>
            let state1 := if state0 = STATE_NORMAL then execState else state0
            let meta1 :=
              match patchIndexGroup2 (diffLine path) with
              | some g2 => meta0 ++ g2
              | none => meta0
            (state1, meta1, st.diffCalls ++ [path])
      { treeState := reconcileEntry st.treeState path state
        metaCache :=
          if meta ≠ "" then alistInsert st.metaCache path meta
          else st.metaCache
        diffCalls := diffCalls }

/-- Lines 192-241: process one raw status line.  `entry[:3]` yields the
three status columns (fewer than three characters fails
`valid_status_re`), and `entry[4:].strip()` yields the name (the character
at index 3 is skipped). -/
def processEntry (diffLine : String → String) (branchRoot : String)
    (st : ScanState) (entry : String) : ScanState :=
  match entry.data with
  | c1 :: c2 :: c3 :: rest =>
      if validStatus c1 c2 c3 then
        processLine diffLine branchRoot st c1 c2 c3 (pyStrip ⟨rest.drop 1⟩)
      else st
  | _ => st

/-- `_update_tree_state_cache` (lines 180-241), once the status entries
have been obtained: the zero-entries-and-single-file special case, else the
entry loop.  `isFile` abstracts `os.path.isfile(path)`. -/
def updateTreeStateCache (diffLine : String → String) (branchRoot : String)
    (entries : List String) (isFile : Bool) (path : String)
    (st : ScanState) : ScanState :=
  if entries.length = 0 && isFile then
    { st with treeState := alistInsert st.treeState path STATE_NORMAL }
  else
    entries.foldl (processEntry diffLine branchRoot) st

/-- `_get_modified_files` (lines 165-166): split the status output on
newlines, drop the final piece (after the trailing newline) and
de-duplicate; Python's arbitrary `list(set(...))` order is modelled as one
concrete duplicate-free order. -/
def getModifiedFiles (raw : String) : List String :=
  ((strSplitOn raw "\n").dropLast).dedup

/-- The line is one that `_update_tree_state_cache` discards: either its
first three characters fail `valid_status_re`, or the decoded state is
`RENAMED` or `CONFLICT` and the secondary pattern fails on the trailing
text. -/
def lineSkippedB (entry : String) : Bool :=
  match entry.data with
  | c1 :: c2 :: c3 :: rest =>
      !validStatus c1 c2 c3 ||
      (decodeState c1 c2 == STATE_RENAMED &&
        (renamedTarget (pyStrip ⟨rest.drop 1⟩)).isNone) ||
      (decodeState c1 c2 == STATE_CONFLICT &&
        (conflictTarget (pyStrip ⟨rest.drop 1⟩)).isNone)
  | _ => true

/-- C3: when the status command yields zero entries and the scanned target
is a single existing file, the tree state for that path is forced to
`STATE_NORMAL`, overwriting any stale state (the initial `tree_state` is
arbitrary here); with zero entries but no single existing file the scan
state is left untouched, and with a non-empty entry list the zero-entry
branch is not taken at all — the result is just the entry-loop fold, which
writes only states decoded from entries, never a forced `NORMAL`. -/
theorem zero_entries_single_file_forces_normal
    (diffLine : String → String) (branchRoot path : String) (st : ScanState) :
    (alistLookup
        (updateTreeStateCache diffLine branchRoot [] true path st).treeState
        path = some STATE_NORMAL) ∧
    (updateTreeStateCache diffLine branchRoot [] false path st = st) ∧
    (∀ (e : String) (es : List String) (isFile : Bool),
        updateTreeStateCache diffLine branchRoot (e :: es) isFile path st =
          (e :: es).foldl (processEntry diffLine branchRoot) st) := by
  refine ⟨?_, ?_, ?_⟩
  · simp [updateTreeStateCache, alistLookup_insert]
  · simp [updateTreeStateCache]
  · intro e es isFile
    simp [updateTreeStateCache]

/-- C6: a raw status line that fails the column validation, or whose decoded
state is `RENAMED` or `CONFLICT` while the secondary pattern fails to match
the trailing text, is skipped: it contributes nothing to the scan state, and
the rest of the scan proceeds exactly as if the line were absent.  The
embedding is a total function, so such a line can never raise an error or
abort the scan. -/
theorem invalid_or_unmatched_line_skipped
    (diffLine : String → String) (branchRoot : String) (st : ScanState)
    (entry : String) (h : lineSkippedB entry = true) :
    processEntry diffLine branchRoot st entry = st ∧
    ∀ rest : List String,
      (entry :: rest).foldl (processEntry diffLine branchRoot) st =
        rest.foldl (processEntry diffLine branchRoot) st := by
  have hmain : processEntry diffLine branchRoot st entry = st := by
    unfold lineSkippedB at h
    unfold processEntry
    rcases hd : entry.data with _ | ⟨c1, _ | ⟨c2, _ | ⟨c3, rest⟩⟩⟩
    all_goals rw [hd] at h
    simp only []
    by_cases hv : validStatus c1 c2 c3
    · simp only [hv, if_true]
      simp only [hv, Bool.not_true, Bool.false_or, Bool.or_eq_true,
        Bool.and_eq_true, beq_iff_eq, Option.isNone_iff_eq_none] at h
      unfold processLine
      rcases h with ⟨hdec, hnone⟩ | ⟨hdec, hnone⟩
      · rw [List.drop_one] at hnone
        rw [hdec]
        simp [renameConflictFixup, hnone]
      · rw [List.drop_one] at hnone
        rw [hdec]
        simp [renameConflictFixup, hnone, STATE_CONFLICT, STATE_RENAMED]
    · simp [hv]
  exact ⟨hmain, fun rest => by simp [List.foldl_cons, hmain]⟩

theorem invalid_or_unmatched_line_skipped_witness :
    processEntry (fun _ => "") "/r" ⟨[("/r/f", STATE_MODIFIED)], [], []⟩
        "R   renamed-line-without-arrow" =
      ⟨[("/r/f", STATE_MODIFIED)], [], []⟩ :=
  (invalid_or_unmatched_line_skipped (fun _ => "") "/r"
    ⟨[("/r/f", STATE_MODIFIED)], [], []⟩
    "R   renamed-line-without-arrow" (by decide)).1

/-- C4 counterexample: two status lines of one scan both contribute metadata
for the path `/r/new.txt` — a rename annotation, then a permission-diff
annotation recovered through the auxiliary diff.  The stored metadata is
only the later line's text: the assignment `self._tree_meta_cache[path] =
meta` at line 230 overwrites, so the rename note does not survive (the
second conjunct checks that the rename note does not occur as a substring of
the stored metadata). -/
theorem metadata_overwritten_across_lines :
    (alistLookup
        (updateTreeStateCache
          (fun _ => "=== modified file 'new.txt' (properties changed: -x to +x)")
          "/r" ["R   old.txt => new.txt", " M* new.txt"] false "./"
          ⟨[], [], []⟩).metaCache "/r/new.txt" =
      some "(properties changed: -x to +x)") ∧
    (strSplitOn "(properties changed: -x to +x)" "old.txt => new.txt").length
      = 1 := by decide

/-- C4 amended: metadata contributions are concatenated only within a single
status line — a rename annotation and a permission-diff annotation on the
same line are stored as their concatenation — while across lines a later
line's non-empty metadata replaces whatever an earlier line stored for the
same path (`st` and hence the previous metadata cache is arbitrary here). -/
theorem metadata_concat_within_line
    (diffLine : String → String) (branchRoot : String) (st : ScanState)
    (c1 c2 c3 : Char) (name target g2 : String)
    (hdec : decodeState c1 c2 = STATE_RENAMED)
    (hren : renamedTarget name = some target)
    (hexec : state_3_map c3 = some STATE_MODIFIED)
    (hdiff : patchIndexGroup2
        (diffLine (osPathJoin branchRoot (pyStripChar '/' target))) = some g2)
    (hne : name ++ g2 ≠ "") :
    alistLookup (processLine diffLine branchRoot st c1 c2 c3 name).metaCache
        (osPathJoin branchRoot (pyStripChar '/' target)) =
      some (name ++ g2) := by
  unfold processLine
  rw [hdec]
  simp only [renameConflictFixup, if_pos rfl, hren]
  rw [hexec]
  have hmod : STATE_RENAMED = STATE_NORMAL ↔ False := by decide
  simp [hmod, hdiff, hne, alistLookup_insert]

theorem metadata_concat_within_line_witness :
    alistLookup
      (processLine
        (fun _ => "=== modified file 'new.txt' (executable)") "/r"
        ⟨[], [("/r/new.txt", "stale")], []⟩ 'R' ' ' '*'
        "old.txt => new.txt").metaCache "/r/new.txt" =
      some ("old.txt => new.txt" ++ "(executable)") :=
  metadata_concat_within_line
    (fun _ => "=== modified file 'new.txt' (executable)") "/r"
    ⟨[], [("/r/new.txt", "stale")], []⟩ 'R' ' ' '*'
    "old.txt => new.txt" "new.txt" "(executable)"
    (by decide) (by decide) (by decide) (by decide) (by decide)

/-- C5 counterexample: the status line `" N* f"` has an executable-bit
change code in column 3 and decodes to `STATE_NEW` from column 2.  `NEW` is
strictly weaker than `MODIFIED` in the priority order, so the claim demands
the state be folded into `MODIFIED`; the code folds only when the columns
yield `STATE_NORMAL`, so the stored state stays `NEW`. -/
theorem exec_bit_not_folded_for_new :
    (alistLookup
        (processEntry (fun _ => "") "/r" ⟨[], [], []⟩ " N* f").treeState
        "/r/f" = some STATE_NEW) ∧
    higherPriority STATE_NEW STATE_MODIFIED = false ∧
    STATE_NEW ≠ STATE_MODIFIED := by decide

/-- C5 amended: on a valid line whose third column shows an executable-bit
change code, the line's state is folded into `MODIFIED` only when the other
columns yield `STATE_NORMAL`; any other column-derived state — stronger or
weaker than `MODIFIED` — is kept.  Exactly one auxiliary diff invocation is
made for the path, and when the permission-diff pattern matches its first
output line, the matched text is preserved as a suffix of the path's
metadata. -/
theorem exec_bit_folded_only_from_normal
    (diffLine : String → String) (branchRoot : String) (st : ScanState)
    (c1 c2 c3 : Char) (name name' meta0 : String)
    (hfix : renameConflictFixup (decodeState c1 c2) name = some (name', meta0))
    (hexec : state_3_map c3 = some STATE_MODIFIED) :
    (processLine diffLine branchRoot st c1 c2 c3 name).treeState =
      reconcileEntry st.treeState (osPathJoin branchRoot name')
        (if decodeState c1 c2 = STATE_NORMAL then STATE_MODIFIED
         else decodeState c1 c2) ∧
    (processLine diffLine branchRoot st c1 c2 c3 name).diffCalls =
      st.diffCalls ++ [osPathJoin branchRoot name'] ∧
    (∀ g2 : String,
      patchIndexGroup2 (diffLine (osPathJoin branchRoot name')) = some g2 →
      meta0 ++ g2 ≠ "" →
      alistLookup (processLine diffLine branchRoot st c1 c2 c3 name).metaCache
          (osPathJoin branchRoot name') = some (meta0 ++ g2)) := by
  simp only [processLine]
  rw [hfix]
  simp only [hexec]
  refine ⟨by simp, by simp, ?_⟩
  intro g2 hg2 hne
  simp [hg2, hne, alistLookup_insert]

theorem exec_bit_folded_only_from_normal_witness :
    (processLine (fun _ => "") "/r" ⟨[], [], []⟩ ' ' 'N' '*' "f").treeState =
      reconcileEntry ([] : List (String × Nat)) "/r/f" STATE_NEW ∧
    (processLine (fun _ => "") "/r" ⟨[], [], []⟩ ' ' 'N' '*' "f").diffCalls =
      [] ++ ["/r/f"] := by
  have h := exec_bit_folded_only_from_normal (fun _ => "") "/r" ⟨[], [], []⟩
    ' ' 'N' '*' "f" "f" "" (by decide) (by decide)
  refine ⟨?_, h.2.1⟩
  have hd : decodeState ' ' 'N' = STATE_NEW := by decide
  have := h.1
  rw [hd] at this
  simpa using this

/-- The eight action sensitivities set by `update_actions_for_paths`. -/
structure VcActions where
  compare : Bool
  commit : Bool
  update : Bool
  push : Bool
  add : Bool
  resolve : Bool
  remove : Bool
  revert : Bool
deriving DecidableEq

/-- `update_actions_for_paths` (lines 309-333): a pure function of the
selected paths' states (`path_states`, embedded as an association list) and
of the repository root `self.root`.  Each field is built exactly like the
corresponding `actions[...]` assignment. -/
def updateActionsForPaths (root : String)
    (pathStates : List (String × Nat)) : VcActions :=
  let states := pathStates.map (fun e => e.2)
  { compare := !pathStates.isEmpty
    commit := states.all (fun s => s != STATE_NONE && s != STATE_IGNORED)
    update := true
    push := true
    add := states.all (fun s => s != STATE_NORMAL && s != STATE_REMOVED)
    resolve := states.all (fun s => s == STATE_CONFLICT)
    remove :=
      states.all (fun s =>
        s != STATE_NONE && s != STATE_IGNORED && s != STATE_REMOVED) &&
      !(pathStates.map (fun e => e.1)).contains root
    revert := states.all (fun s =>
      s != STATE_NONE && s != STATE_NORMAL && s != STATE_IGNORED) }

/-- C2 counterexample: for the empty selection the claim says `resolve` is
disabled — the state set is empty, hence not "non-empty with every state
CONFLICT" — but the code's vacuously true `all(...)` enables it. -/
theorem resolve_enabled_on_empty_selection :
    ¬ (((updateActionsForPaths "/r" []).resolve = true) ↔
        (([] : List (String × Nat)) ≠ [] ∧
         ∀ s ∈ ([] : List (String × Nat)).map Prod.snd,
           s = STATE_CONFLICT)) := by
  decide

/-- C2 amended: the action sensitivity computation is a pure function of the
selected paths' states and the root; `compare` is enabled iff the selection
is non-empty; `commit` iff every state is outside NONE and IGNORED; `add`
iff every state is outside NORMAL and REMOVED; `resolve` iff every state
equals CONFLICT (vacuously enabled for an empty selection); `remove` iff
every state is outside NONE, IGNORED and REMOVED and the repository root is
not among the selected paths; `revert` iff every state is outside NONE,
NORMAL and IGNORED; `update` and `push` are always enabled. -/
theorem action_sensitivity_characterization (root : String)
    (pathStates : List (String × Nat)) :
    ((updateActionsForPaths root pathStates).compare = true ↔
      pathStates ≠ []) ∧
    ((updateActionsForPaths root pathStates).commit = true ↔
      ∀ s ∈ pathStates.map Prod.snd,
        s ≠ STATE_NONE ∧ s ≠ STATE_IGNORED) ∧
    ((updateActionsForPaths root pathStates).add = true ↔
      ∀ s ∈ pathStates.map Prod.snd,
        s ≠ STATE_NORMAL ∧ s ≠ STATE_REMOVED) ∧
    ((updateActionsForPaths root pathStates).resolve = true ↔
      ∀ s ∈ pathStates.map Prod.snd, s = STATE_CONFLICT) ∧
    ((updateActionsForPaths root pathStates).remove = true ↔
      ((∀ s ∈ pathStates.map Prod.snd,
          s ≠ STATE_NONE ∧ s ≠ STATE_IGNORED ∧ s ≠ STATE_REMOVED) ∧
        root ∉ pathStates.map Prod.fst)) ∧
    ((updateActionsForPaths root pathStates).revert = true ↔
      ∀ s ∈ pathStates.map Prod.snd,
        s ≠ STATE_NONE ∧ s ≠ STATE_NORMAL ∧ s ≠ STATE_IGNORED) ∧
    (updateActionsForPaths root pathStates).update = true ∧
    (updateActionsForPaths root pathStates).push = true := by
  simp [updateActionsForPaths, List.all_eq_true, List.isEmpty_iff,
    and_assoc]

/-- The conflict-side identifiers of the `_vc` module. -/
inductive ConflictSide
  | base
  | other
  | this
  | merged
deriving DecidableEq

/-- `conflict_map` (lines 50-55). -/
def conflict_map : ConflictSide → String
  | ConflictSide.base => ".BASE"
  | ConflictSide.other => ".OTHER"
  | ConflictSide.this => ".THIS"
  | ConflictSide.merged => ""

/-- `get_path_for_conflict` (lines 301-306): raises `InvalidVCPath` (here
`Except.error`) when the path does not start with the repository root
followed by the path separator; otherwise pure path arithmetic appending
the conflict-map suffix.  The boolean component mirrors the `False` the
code returns alongside the path. -/
def getPathForConflict (root path : String) (conflict : ConflictSide) :
    Except String (String × Bool) :=
  if !(strStartsWith path (root ++ "/")) then
    Except.error "Path not in repository"
  else
    Except.ok (path ++ conflict_map conflict, false)

/-- C8: `get_path_for_conflict` fails with an invalid-path error exactly
when the path is not rooted under the bound repository root, and otherwise
performs pure path arithmetic, returning the path suffixed with `.BASE`,
`.OTHER`, `.THIS`, or nothing for the sides BASE, OTHER, THIS, MERGED
respectively.  The embedding is a pure function: no external tool and no
cache is involved. -/
theorem conflict_path_pure_arithmetic (root path : String)
    (side : ConflictSide) :
    (strStartsWith path (root ++ "/") = false →
      getPathForConflict root path side =
        Except.error "Path not in repository") ∧
    (strStartsWith path (root ++ "/") = true →
      getPathForConflict root path side =
        Except.ok (path ++ (match side with
          | ConflictSide.base => ".BASE"
          | ConflictSide.other => ".OTHER"
          | ConflictSide.this => ".THIS"
          | ConflictSide.merged => ""), false)) := by
  constructor
  · intro h
    simp [getPathForConflict, h]
  · intro h
    cases side <;> simp [getPathForConflict, h, conflict_map]

theorem conflict_path_pure_arithmetic_witness :
    getPathForConflict "/repo" "/repo/f.txt" ConflictSide.base =
      Except.ok ("/repo/f.txt" ++ ".BASE", false) ∧
    getPathForConflict "/repo" "/elsewhere/f.txt" ConflictSide.other =
      Except.error "Path not in repository" := by
  constructor
  · exact (conflict_path_pure_arithmetic "/repo" "/repo/f.txt"
      ConflictSide.base).2 (by decide)
  · exact (conflict_path_pure_arithmetic "/repo" "/elsewhere/f.txt"
      ConflictSide.other).1 (by decide)

/-- The POSIX `errno.EAGAIN` code compared against at line 177. -/
def EAGAIN : Nat := 11

/-- The retry loop of lines 172-178 around `_get_modified_files`:
`attempts i` is the outcome of the `i`-th invocation of the status command,
`Except.error e` standing for an `OSError` with `errno = e`.  The loop
retries while the error is `EAGAIN` and otherwise stops, delivering the
entries or re-raising the error; the fuel bounds the unrolling, `none`
meaning the loop is still retrying after `fuel` attempts. -/
def retryEAGAIN (attempts : Nat → Except Nat (List String)) :
    Nat → Nat → Option (Except Nat (List String))
  | 0, _ => none
  | fuel + 1, i =>
      match attempts i with
      | Except.ok entries => some (Except.ok entries)
      | Except.error e =>
          if e = EAGAIN then retryEAGAIN attempts fuel (i + 1)
          else some (Except.error e)

theorem retryEAGAIN_reaches (attempts : Nat → Except Nat (List String))
    (k : Nat) (hk : attempts k ≠ Except.error EAGAIN) :
    ∀ fuel i, (∀ j, j < k → attempts j = Except.error EAGAIN) →
      i ≤ k → k - i < fuel →
      retryEAGAIN attempts fuel i = some (attempts k) := by
  intro fuel
  induction fuel with
  | zero => intro i _ _ hlt; omega
  | succ n ih =>
      intro i hbefore hik hlt
      unfold retryEAGAIN
      by_cases hieq : i = k
      · subst hieq
        rcases hattempt : attempts i with e | entries
        · have : e ≠ EAGAIN := by
            intro he
            exact hk (by rw [hattempt, he])
          simp [this]
        · simp
      · have hi : i < k := lt_of_le_of_ne hik hieq
        rw [hbefore i hi]
        simp only [if_pos rfl]
        exact ih (i + 1) hbefore hi (by omega)

/-- C9: a resource-temporarily-unavailable (`EAGAIN`) failure of the status
invocation is retried: if every attempt before attempt `k` fails with
`EAGAIN` and attempt `k` does not, the loop returns attempt `k`'s outcome —
a success is delivered, and a failure of any other error class is
propagated to the caller rather than retried. -/
theorem eagain_retried_until_other_outcome
    (attempts : Nat → Except Nat (List String)) (k fuel : Nat)
    (hbefore : ∀ j, j < k → attempts j = Except.error EAGAIN)
    (hk : attempts k ≠ Except.error EAGAIN)
    (hfuel : k < fuel) :
    retryEAGAIN attempts fuel 0 = some (attempts k) :=
  retryEAGAIN_reaches attempts k hk fuel 0 hbefore (Nat.zero_le k)
    (by omega)

theorem eagain_retried_until_other_outcome_witness :
    retryEAGAIN
      (fun i => if i < 2 then Except.error EAGAIN
                else Except.ok ["modified.txt"]) 5 0 =
      some (Except.ok ["modified.txt"]) := by
  have h := eagain_retried_until_other_outcome
    (fun i => if i < 2 then Except.error EAGAIN
              else Except.ok ["modified.txt"]) 2 5
    (by
      intro j hj
      match j with
      | 0 => rfl
      | 1 => rfl
      | n + 2 => omega)
    (by simp) (by omega)
  simpa using h

/-- `os.path.split` for POSIX paths (`posixpath.split`): split after the
last slash; the head keeps its trailing slashes only when it consists
solely of slashes. -/
def osPathSplit (p : String) : String × String :=
  let tailChars := (p.data.reverse.takeWhile (fun c => c != '/')).reverse
  let headChars := p.data.take (p.data.length - tailChars.length)
  let head :=
    if headChars.all (fun c => c == '/') then headChars
    else (headChars.reverse.dropWhile (fun c => c == '/')).reverse
  (⟨head⟩, ⟨tailChars⟩)

/-- A `_vc.File` / `_vc.Dir` entry: path, display name, state, metadata.
Modelled from the spec: the `_vc` module defining the entry classes is not
under `src/`; the spec's File/Directory Entry carries exactly these fields,
with the metadata string empty when a constructor is given none. -/
structure VcEntry where
  path : String
  name : String
  state : Nat
  options : String
deriving DecidableEq

/-- The annotation of one `(name, path)` listing pair (lines 262-270):
state from the tree cache with default `STATE_NORMAL`, metadata from the
metadata cache with default the empty string. -/
def annotateEntry (tree : List (String × Nat))
    (metaCache : List (String × String)) (e : String × String) : VcEntry :=
  ⟨e.2, e.1, (alistLookup tree e.2).getD STATE_NORMAL,
    (alistLookup metaCache e.2).getD ""⟩

/-- `_get_dirsandfiles` (lines 256-277): annotate a caller-provided listing
of `(name, path)` pairs for files and directories using the cached tree
state and the metadata cache, then append synthesized file entries for the
cached paths whose state is `REMOVED` or `MISSING` and whose parent
directory (per `os.path.split`) is the queried directory — such paths are
no longer on disk and would otherwise be invisible.  `tree` abstracts
`self._get_tree_cache(directory)`. -/
def getDirsAndFiles (tree : List (String × Nat))
    (metaCache : List (String × String)) (directory : String)
    (dirs files : List (String × String)) :
    List VcEntry × List VcEntry :=
  let retfiles := files.map (annotateEntry tree metaCache)
  let retdirs := dirs.map (annotateEntry tree metaCache)
  let removedEntries := (tree.filter (fun e =>
      (e.2 == STATE_REMOVED || e.2 == STATE_MISSING) &&
        (osPathSplit e.1).1 == directory)).map
    (fun e => VcEntry.mk e.1 (osPathSplit e.1).2 e.2 "")
  (retdirs, retfiles ++ removedEntries)

/-- C10 counterexample: a path absent from the cached tree state but still
present in the persistent metadata cache (reachable because
`_tree_meta_cache` survives rescans while `tree_state` is rebuilt) is
returned with state `NORMAL` but with the stale metadata — not with empty
metadata as the claim states. -/
theorem absent_path_keeps_stale_metadata :
    (getDirsAndFiles [] [("/r/f", "old.txt => f")] "/r" []
        [("f", "/r/f")]).2 =
      [VcEntry.mk "/r/f" "f" STATE_NORMAL "old.txt => f"] ∧
    "old.txt => f" ≠ "" := by decide

/-- C10 amended: a listed file or directory path absent from the cached
tree state is annotated with state `NORMAL` — never `NONE` — and with the
metadata held for it by the separate metadata cache (empty when absent
there too); and the synthesized extra file entries are exactly the cached
paths whose state is `REMOVED` or `MISSING` and whose immediate parent
directory equals the queried directory, each carrying its cached state and
split-off name. -/
theorem dirsandfiles_characterization
    (tree : List (String × Nat)) (metaCache : List (String × String))
    (directory : String) (dirs files : List (String × String)) :
    (∀ nm p, (nm, p) ∈ files → alistLookup tree p = none →
      VcEntry.mk p nm STATE_NORMAL ((alistLookup metaCache p).getD "") ∈
        (getDirsAndFiles tree metaCache directory dirs files).2) ∧
    (∀ nm p, (nm, p) ∈ dirs → alistLookup tree p = none →
      VcEntry.mk p nm STATE_NORMAL ((alistLookup metaCache p).getD "") ∈
        (getDirsAndFiles tree metaCache directory dirs files).1) ∧
    STATE_NORMAL ≠ STATE_NONE ∧
    (∀ e : VcEntry,
      e ∈ (getDirsAndFiles tree metaCache directory dirs files).2 →
      (∃ nmp ∈ files, e = annotateEntry tree metaCache nmp) ∨
      (∃ ps ∈ tree, (ps.2 = STATE_REMOVED ∨ ps.2 = STATE_MISSING) ∧
        (osPathSplit ps.1).1 = directory ∧
        e = VcEntry.mk ps.1 (osPathSplit ps.1).2 ps.2 "")) ∧
    (∀ ps ∈ tree, (ps.2 = STATE_REMOVED ∨ ps.2 = STATE_MISSING) →
      (osPathSplit ps.1).1 = directory →
      VcEntry.mk ps.1 (osPathSplit ps.1).2 ps.2 "" ∈
        (getDirsAndFiles tree metaCache directory dirs files).2) := by
  refine ⟨?_, ?_, by decide, ?_, ?_⟩
  · intro nm p hmem hnone
    simp only [getDirsAndFiles, List.mem_append, List.mem_map]
    exact Or.inl ⟨(nm, p), hmem, by simp [annotateEntry, hnone]⟩
  · intro nm p hmem hnone
    simp only [getDirsAndFiles, List.mem_map]
    exact ⟨(nm, p), hmem, by simp [annotateEntry, hnone]⟩
  · intro e he
    simp only [getDirsAndFiles, List.mem_append, List.mem_map,
      List.mem_filter] at he
    rcases he with ⟨nmp, hnmp, rfl⟩ | ⟨ps, ⟨hps, hcond⟩, rfl⟩
    · exact Or.inl ⟨nmp, hnmp, rfl⟩
    · have hcond' :
          (ps.2 = STATE_REMOVED ∨ ps.2 = STATE_MISSING) ∧
            (osPathSplit ps.1).1 = directory := by
        simpa using hcond
      exact Or.inr ⟨ps, hps, hcond'.1, hcond'.2, rfl⟩
  · intro ps hps hstate hdir
    simp only [getDirsAndFiles, List.mem_append, List.mem_map,
      List.mem_filter]
    refine Or.inr ⟨ps, ⟨hps, ?_⟩, rfl⟩
    have h1 : (ps.2 == STATE_REMOVED || ps.2 == STATE_MISSING) = true := by
      rcases hstate with h | h
      · simp [h]
      · simp [h]
    have h2 : ((osPathSplit ps.1).1 == directory) = true := by
      simpa using hdir
    simp [h1, h2]

theorem dirsandfiles_characterization_witness :
    VcEntry.mk "/r/f" "f" STATE_NORMAL
        ((alistLookup [("/r/f", "stale")] "/r/f").getD "") ∈
      (getDirsAndFiles [("/r/gone", STATE_REMOVED)] [("/r/f", "stale")]
        "/r" [] [("f", "/r/f")]).2 ∧
    VcEntry.mk "/r/gone" (osPathSplit "/r/gone").2 STATE_REMOVED "" ∈
      (getDirsAndFiles [("/r/gone", STATE_REMOVED)] [("/r/f", "stale")]
        "/r" [] [("f", "/r/f")]).2 := by
  have h := dirsandfiles_characterization [("/r/gone", STATE_REMOVED)]
    [("/r/f", "stale")] "/r" [] [("f", "/r/f")]
  exact ⟨h.1 "f" "/r/f" (by decide) (by decide),
    h.2.2.2.2 ("/r/gone", STATE_REMOVED) (by decide) (Or.inl rfl)
      (by decide)⟩

/-- `commit_statuses` (lines 44-46): the commit-eligible state set. -/
def commit_statuses : List Nat :=
  [STATE_MODIFIED, STATE_RENAMED, STATE_NEW, STATE_REMOVED]

/-- `_lookup_tree_cache` (lines 243-250): despite taking a `rootdir`
argument, it builds the cache by scanning `./` — the whole tree — so its
result does not depend on `rootdir` (`fullTree` abstracts the result of
that whole-tree scan). -/
def lookupTreeCache (fullTree : List (String × Nat)) (_rootdir : String) :
    List (String × Nat) :=
  fullTree

/-- The loop body of `get_files_to_commit` (lines 136-143): a directory
argument is replaced by the names of commit-eligible entries of
`_lookup_tree_cache`, a non-directory argument by its path relative to the
repository root.  `isDir` abstracts `os.path.isdir` and `relpathRoot`
abstracts `os.path.relpath(·, self.root)`. -/
def commitCandidates (isDir : String → Bool)
    (relpathRoot : String → String) (fullTree : List (String × Nat))
    (p : String) : List String :=
  if isDir p then
    ((lookupTreeCache fullTree p).filter
      (fun e => commit_statuses.contains e.2)).map (fun e => e.1)
  else [relpathRoot p]

/-- `get_files_to_commit` (lines 134-144): gather candidates over all
arguments, then `sorted(list(set(files)))` — de-duplicate and sort
(Python sorts strings by code point, which is `≤` on `String`). -/
def getFilesToCommit (isDir : String → Bool)
    (relpathRoot : String → String) (fullTree : List (String × Nat))
    (paths : List String) : List String :=
  List.insertionSort (· ≤ ·)
    (paths.flatMap (commitCandidates isDir relpathRoot fullTree)).dedup

/-- C7 counterexample: expanding the directory argument `/r/d1` uses the
cache `_lookup_tree_cache` builds for the WHOLE tree (it scans `./`, per
its own comment), so the commit-eligible file `/r/d2/file` — not under
`/r/d1` — is returned anyway, contradicting "exactly the set of file paths
under that directory". -/
theorem commit_expansion_ignores_directory :
    getFilesToCommit (fun p => p == "/r/d1") (fun p => p)
      [("/r/d2/file", STATE_MODIFIED)] ["/r/d1"] = ["/r/d2/file"] ∧
    strStartsWith "/r/d2/file" "/r/d1" = false := by decide

/-- C7 amended: `get_files_to_commit` replaces each directory argument with
the names of ALL commit-eligible entries of the whole-tree cache (the
lookup ignores which directory was asked), keeps each non-directory
argument as its root-relative path, and returns the combined results
de-duplicated and sorted, so the output is independent of the order of the
input paths. -/
theorem files_to_commit_sorted_dedup_order_independent
    (isDir : String → Bool) (relpathRoot : String → String)
    (fullTree : List (String × Nat)) (paths paths' : List String)
    (hperm : paths.Perm paths') :
    getFilesToCommit isDir relpathRoot fullTree paths =
      getFilesToCommit isDir relpathRoot fullTree paths' ∧
    List.Sorted (· ≤ ·) (getFilesToCommit isDir relpathRoot fullTree paths) ∧
    (getFilesToCommit isDir relpathRoot fullTree paths).Nodup ∧
    (∀ x, x ∈ getFilesToCommit isDir relpathRoot fullTree paths ↔
      (∃ p ∈ paths, isDir p = false ∧ x = relpathRoot p) ∨
      (∃ p ∈ paths, isDir p = true ∧
        ∃ s, (x, s) ∈ fullTree ∧ s ∈ commit_statuses)) := by
  refine ⟨?_, List.sorted_insertionSort _ _, ?_, ?_⟩
  · have hperm2 :
        List.Perm
          (paths.flatMap (commitCandidates isDir relpathRoot fullTree)).dedup
          (paths'.flatMap
            (commitCandidates isDir relpathRoot fullTree)).dedup :=
      (hperm.flatMap_right _).dedup
    exact List.eq_of_perm_of_sorted
      ((List.perm_insertionSort _ _).trans
        (hperm2.trans (List.perm_insertionSort _ _).symm))
      (List.sorted_insertionSort _ _) (List.sorted_insertionSort _ _)
  · exact ((List.perm_insertionSort _ _).nodup_iff).2 (List.nodup_dedup _)
  · intro x
    unfold getFilesToCommit
    rw [(List.perm_insertionSort _ _).mem_iff, List.mem_dedup,
      List.mem_flatMap]
    constructor
    · rintro ⟨p, hp, hx⟩
      by_cases hd : isDir p
      · right
        refine ⟨p, hp, hd, ?_⟩
        simp only [commitCandidates, hd, if_true, lookupTreeCache,
          List.mem_map, List.mem_filter] at hx
        obtain ⟨e, ⟨hmem, hstat⟩, rfl⟩ := hx
        exact ⟨e.2, by simpa using hmem, by simpa using hstat⟩
      · left
        refine ⟨p, hp, by simpa using hd, ?_⟩
        simp only [commitCandidates, hd, if_false] at hx
        simpa using hx
    · rintro (⟨p, hp, hd, rfl⟩ | ⟨p, hp, hd, s, hmem, hstat⟩)
      · exact ⟨p, hp, by simp [commitCandidates, hd]⟩
      · refine ⟨p, hp, ?_⟩
        simp only [commitCandidates, hd, if_true, lookupTreeCache,
          List.mem_map, List.mem_filter]
        exact ⟨(x, s), ⟨hmem, by simpa using hstat⟩, rfl⟩

theorem files_to_commit_sorted_dedup_order_independent_witness :
    getFilesToCommit (fun p => p == "/r/d") (fun p => p)
      [("/r/d/b", STATE_MODIFIED), ("/r/d/a", STATE_NEW),
       ("/r/d/c", STATE_NORMAL)] ["/r/x", "/r/d"] =
      getFilesToCommit (fun p => p == "/r/d") (fun p => p)
        [("/r/d/b", STATE_MODIFIED), ("/r/d/a", STATE_NEW),
         ("/r/d/c", STATE_NORMAL)] ["/r/d", "/r/x"] := by
  have h := files_to_commit_sorted_dedup_order_independent
    (fun p => p == "/r/d") (fun p => p)
    [("/r/d/b", STATE_MODIFIED), ("/r/d/a", STATE_NEW),
     ("/r/d/c", STATE_NORMAL)] ["/r/x", "/r/d"] ["/r/d", "/r/x"]
    (List.Perm.swap _ _ _)
  exact h.1

end Bzr
